import Mathlib

/-!
Shallow embedding of the font registry engine of `src/font_manager.py`
(class `FontManager`): the Windows path primitives the source calls
(`os.path.join`, `os.path.isabs`, `os.path.basename`, `os.path.splitext`,
`str.lower`, `str.startswith`), a model of the two registry hives (lists
of value-name/value-data pairs), a model of the filesystem (the list of
existing file paths, matched exactly), and the three operations
`get_installed_fonts`, `install_font` and `uninstall_font`.

Python strings are modelled as lists of Unicode code points.
-/

/-- A Python string: a sequence of Unicode code points. -/
abbrev PyStr := List Char

/-- The Windows path separators recognised by `ntpath` (`sep` and `altsep`). -/
def isSep (c : Char) : Bool := c == '\\' || c == '/'

/-- Model of `ntpath.splitdrive` for drive-letter paths `X:...`
(UNC and device paths are not modelled; the source never builds them). -/
def splitdrive (p : PyStr) : PyStr × PyStr :=
  match p with
  | a :: b :: rest => if b == ':' then ([a, b], rest) else ([], p)
  | _ => ([], p)

/-- Model of `ntpath.isabs` (Python ≤ 3.12 semantics): strip the drive,
then test for a leading separator. -/
def isAbs (p : PyStr) : Bool :=
  match (splitdrive p).2 with
  | [] => false
  | c :: _ => isSep c

/-- Model of the two-argument `os.path.join(root, p)` as the source uses it:
an absolute second component replaces the first; otherwise the parts are
joined, inserting a backslash unless `root` is empty or already ends in a
separator.  (Drive-relative second components are not modelled.)  The
enumerator's `os.path.join(dir, value) if not os.path.isabs(value) else
value` is this same function, since `join` itself returns an absolute
second argument unchanged. -/
def osJoin (root p : PyStr) : PyStr :=
  if isAbs p then p
  else
    match root.getLast? with
    | none => p
    | some c => if isSep c then root ++ p else root ++ '\\' :: p

/-- Model of `str.lower` (per-code-point lowering; on the ASCII path and
name material involved this agrees with Python). -/
def pyLower (p : PyStr) : PyStr := p.map Char.toLower

/-- The final component of a path: everything after the last separator
(the accumulator holds the current component reversed). -/
def basenameCore : PyStr → PyStr → PyStr
  | [], acc => acc.reverse
  | c :: cs, acc => if isSep c then basenameCore cs [] else basenameCore cs (c :: acc)

/-- Model of `ntpath.basename`: drop the drive, then take the part after
the last separator. -/
def basename (p : PyStr) : PyStr := basenameCore (splitdrive p).2 []

/-- The suffix of `p` starting at its last dot, if `p` has a dot. -/
def lastDotSuffix : PyStr → Option PyStr
  | [] => none
  | c :: cs =>
    match lastDotSuffix cs with
    | some s => some s
    | none => if c == '.' then some (c :: cs) else none

/-- Model of `os.path.splitext`: the extension starts at the last dot of
the final path component, except that leading dots of that component never
start an extension. -/
def splitext (p : PyStr) : PyStr × PyStr :=
  let component := basenameCore p []
  let core := component.dropWhile (fun c => c == '.')
  match lastDotSuffix core with
  | some e => (p.take (p.length - e.length), e)
  | none => (p, [])

/-- Python string `<=`: lexicographic comparison by code point. -/
def pyStrLe : PyStr → PyStr → Bool
  | [], _ => true
  | _ :: _, [] => false
  | a :: xs, b :: ys => if a == b then pyStrLe xs ys else decide (a < b)

/-- Model of `os.path.exists` over the list of existing files (paths are
matched exactly; the real filesystem's case folding is not modelled). -/
def fsExists (fs : List PyStr) (p : PyStr) : Bool := fs.any (fun q => q == p)

/-- One registry value under a `Fonts` key: value name and string data. -/
abbrev RegEntry := PyStr × PyStr

/-- Model of `winreg.SetValueEx`: replace any value with the given name,
then store the new name/data pair (value names are treated as
case-sensitive, a simplification of the real registry). -/
def setValue (reg : List RegEntry) (n v : PyStr) : List RegEntry :=
  reg.filter (fun e => !(e.1 == n)) ++ [(n, v)]

/-- Whether the key holds a value with the given name.
`winreg.DeleteValue` raises `FileNotFoundError` exactly when it does not. -/
def hasValue (reg : List RegEntry) (n : PyStr) : Bool := reg.any (fun e => e.1 == n)

/-- Model of `winreg.DeleteValue` on a present value. -/
def deleteValue (reg : List RegEntry) (n : PyStr) : List RegEntry :=
  reg.filter (fun e => !(e.1 == n))

/-- One entry of the merged catalog, mirroring the dict built by
`get_installed_fonts` (`name` / `file` / `path` / `type`). -/
structure FontRecord where
  name : PyStr
  file : PyStr
  path : PyStr
  type : PyStr
deriving DecidableEq

/-- The literal type tag `'系统字体'` (system font). -/
def systemTypeStr : PyStr := "系统字体".data

/-- The literal type tag `'用户字体'` (user font). -/
def userTypeStr : PyStr := "用户字体".data

/-- The two scope roots held by a `FontManager` instance. -/
structure FontManager where
  system_fonts_dir : PyStr
  user_fonts_dir : PyStr

/-- `FontManager.__init__`: the roots come from `%WINDIR%\Fonts` and
`%LOCALAPPDATA%\Microsoft\Windows\Fonts`. -/
def FontManager.ofEnv (windir localappdata : PyStr) : FontManager :=
  { system_fonts_dir := osJoin windir "Fonts".data
    user_fonts_dir :=
      osJoin (osJoin (osJoin localappdata "Microsoft".data) "Windows".data) "Fonts".data }

/-- The dedup key `get_installed_fonts` uses: `(name, font_path.lower())`. -/
def keyOf (r : FontRecord) : PyStr × PyStr := (r.name, pyLower r.path)

/-- One pass of the enumeration loop of `get_installed_fonts` over the
values of one hive: resolve each value against the hive's root `fontDir`,
keep it only if the resolved file exists, classify by where the resolved
path actually is (prefix test against `sysDir`), and skip any
`(name, lowered path)` key that was already added. -/
def addFontsFromReg (sysDir fontDir : PyStr) (fs : List PyStr) :
    List RegEntry → List FontRecord × List (PyStr × PyStr) →
    List FontRecord × List (PyStr × PyStr)
  | [], acc => acc
  | (n, v) :: rest, (fonts, added) =>
    let font_path := osJoin fontDir v
    if fsExists fs font_path then
      let is_system := (pyLower sysDir).isPrefixOf (pyLower font_path)
      let font_key := (n, pyLower font_path)
      if font_key ∈ added then
        addFontsFromReg sysDir fontDir fs rest (fonts, added)
      else
        addFontsFromReg sysDir fontDir fs rest
          (fonts ++ [⟨n, v, font_path, if is_system then systemTypeStr else userTypeStr⟩],
           font_key :: added)
    else
      addFontsFromReg sysDir fontDir fs rest (fonts, added)

/-- The merge phase of `get_installed_fonts`: read the machine hive
(resolving against the system root), then the user hive (resolving against
the user root); a hive whose open/enumerate raised (`none`) contributes
nothing while the other hive is still read. -/
def mergeAcc (m : FontManager) (sysRead userRead : Option (List RegEntry))
    (fs : List PyStr) : List FontRecord × List (PyStr × PyStr) :=
  let acc1 :=
    match sysRead with
    | none => ([], [])
    | some es => addFontsFromReg m.system_fonts_dir m.system_fonts_dir fs es ([], [])
  match userRead with
  | none => acc1
  | some es => addFontsFromReg m.system_fonts_dir m.user_fonts_dir fs es acc1

/-- The final step of `get_installed_fonts`:
`sorted(fonts, key=lambda x: x['name'])`. -/
def get_installed_fonts (m : FontManager) (sysRead userRead : Option (List RegEntry))
    (fs : List PyStr) : List FontRecord :=
  (mergeAcc m sysRead userRead fs).1.mergeSort (fun a b => pyStrLe a.name b.name)

/-- The mutable world the engine touches: the two hives and the set of
existing files. -/
structure SysState where
  machineReg : List RegEntry
  userReg : List RegEntry
  fs : List PyStr
deriving DecidableEq

/-- `list_fonts` as the UI calls it: both hive reads succeed in full. -/
def list_fonts (m : FontManager) (st : SysState) : List FontRecord :=
  get_installed_fonts m (some st.machineReg) (some st.userReg) st.fs

/-- An OS-level failure raised by a copy, registry-write, or delete call:
`PermissionError`, or any other exception carrying its message. -/
inductive OsErr where
  | permission
  | other (detail : PyStr)
deriving DecidableEq

/-- Result of an install or uninstall call: the final world, the returned
`(success, message)` pair, and whether the change notifier ran. -/
structure OpResult where
  st : SysState
  ok : Bool
  msg : PyStr
  notified : Bool
deriving DecidableEq

/-- `"字体文件不存在"` — the `FileNotFound` reason. -/
def msgFileNotFound : PyStr := "字体文件不存在".data

/-- `"不支持的字体格式，仅支持 .ttf, .otf, .ttc"` — the `UnsupportedFormat` reason. -/
def msgUnsupported : PyStr := "不支持的字体格式，仅支持 .ttf, .otf, .ttc".data

/-- `f"字体已存在于{type_name}中"` — the `AlreadyInstalled` reason. -/
def msgAlreadyInstalled (typeName : PyStr) : PyStr :=
  "字体已存在于".data ++ typeName ++ "中".data

/-- `f"字体已成功安装为{type_name}"`. -/
def msgInstallOk (typeName : PyStr) : PyStr := "字体已成功安装为".data ++ typeName

/-- Install `PermissionError` message for system scope. -/
def msgInstallPermSys : PyStr := "安装系统字体需要管理员权限，请以管理员身份运行程序".data

/-- `"权限不足"` — `PermissionError` message for user scope. -/
def msgPermDenied : PyStr := "权限不足".data

/-- `f"安装失败: {e}"`. -/
def msgInstallFailed (d : PyStr) : PyStr := "安装失败: ".data ++ d

/-- `f"{font_type}卸载成功"`. -/
def msgUninstallOk (fontType : PyStr) : PyStr := fontType ++ "卸载成功".data

/-- Uninstall `PermissionError` message for system scope. -/
def msgUninstallPermSys : PyStr := "卸载系统字体需要管理员权限，请以管理员身份运行程序".data

/-- `"注册表项不存在"` — the `RegistryEntryMissing` reason. -/
def msgRegMissing : PyStr := "注册表项不存在".data

/-- `f"卸载失败: {e}"`. -/
def msgUninstallFailed (d : PyStr) : PyStr := "卸载失败: ".data ++ d

/-- `install_font(font_path, install_type)`.  The validation phase
(source exists, extension allow-list, target absent) runs before the
`try` block; OS failures of the copy and of the registry write inside the
`try` are supplied as oracles (`copyErr`, `regErr`).  The change notifier
itself never raises. -/
def install_font (m : FontManager) (st : SysState) (font_path : PyStr)
    (install_type : PyStr) (copyErr regErr : Option OsErr) : OpResult :=
  if fsExists st.fs font_path then
    let ext := pyLower (splitext font_path).2
    if ext = ".ttf".data ∨ ext = ".otf".data ∨ ext = ".ttc".data then
      let font_filename := basename font_path
      let isSys := decide (install_type = "system".data)
      let target_dir := if isSys then m.system_fonts_dir else m.user_fonts_dir
      let type_name := if isSys then systemTypeStr else userTypeStr
      let target_path := osJoin target_dir font_filename
      if fsExists st.fs target_path then
        ⟨st, false, msgAlreadyInstalled type_name, false⟩
      else
        match copyErr with
        | some .permission =>
          ⟨st, false, if isSys then msgInstallPermSys else msgPermDenied, false⟩
        | some (.other d) => ⟨st, false, msgInstallFailed d, false⟩
        | none =>
          let st1 : SysState := { st with fs := st.fs ++ [target_path] }
          let font_name := (splitext font_filename).1
          let reg_name :=
            if ext = ".ttf".data then font_name ++ " (TrueType)".data
            else if ext = ".otf".data then font_name ++ " (OpenType)".data
            else font_name
          match regErr with
          | some .permission =>
            ⟨st1, false, if isSys then msgInstallPermSys else msgPermDenied, false⟩
          | some (.other d) => ⟨st1, false, msgInstallFailed d, false⟩
          | none =>
            let st2 : SysState :=
              if isSys then
                { st1 with machineReg := setValue st1.machineReg reg_name font_filename }
              else
                { st1 with userReg := setValue st1.userReg reg_name font_filename }
            ⟨st2, true, msgInstallOk type_name, true⟩
    else ⟨st, false, msgUnsupported, false⟩
  else ⟨st, false, msgFileNotFound, false⟩

/-- `uninstall_font(font_name, font_file, font_type)`.  `openErr` is a
failure raised while opening the key or deleting the value (beyond the
deterministic missing-value `FileNotFoundError`), `removeErr` a failure
of `os.remove` when it is attempted. -/
def uninstall_font (m : FontManager) (st : SysState)
    (font_name font_file font_type : PyStr)
    (openErr removeErr : Option OsErr) : OpResult :=
  let isSys := decide (font_type = systemTypeStr)
  let font_dir := if isSys then m.system_fonts_dir else m.user_fonts_dir
  let reg := if isSys then st.machineReg else st.userReg
  match openErr with
  | some .permission =>
    ⟨st, false, if isSys then msgUninstallPermSys else msgPermDenied, false⟩
  | some (.other d) => ⟨st, false, msgUninstallFailed d, false⟩
  | none =>
    if hasValue reg font_name then
      let reg2 := deleteValue reg font_name
      let st1 : SysState :=
        if isSys then { st with machineReg := reg2 } else { st with userReg := reg2 }
      let font_path := osJoin font_dir font_file
      if fsExists st1.fs font_path then
        match removeErr with
        | some .permission =>
          ⟨st1, false, if isSys then msgUninstallPermSys else msgPermDenied, false⟩
        | some (.other d) => ⟨st1, false, msgUninstallFailed d, false⟩
        | none =>
          ⟨{ st1 with fs := st1.fs.filter (fun q => !(q == font_path)) }, true,
           msgUninstallOk font_type, true⟩
      else ⟨st1, true, msgUninstallOk font_type, true⟩
    else ⟨st, false, msgRegMissing, false⟩

theorem sanity_splitext : splitext "C:\\src\\X.ttf".data = ("C:\\src\\X".data, ".ttf".data) := by
  decide

theorem sanity_basename : basename "C:\\src\\X.ttf".data = "X.ttf".data := by decide

theorem sanity_osJoin :
    osJoin "C:\\U".data "X.ttf".data = "C:\\U\\X.ttf".data ∧
    osJoin "C:\\U".data "D:\\a.ttf".data = "D:\\a.ttf".data := by decide

/-! ### Basic lemmas about the filesystem and registry models -/

theorem fsExists_iff {fs : List PyStr} {p : PyStr} : fsExists fs p = true ↔ p ∈ fs := by
  simp [fsExists, List.any_eq_true]

theorem fsExists_filter_self (fs : List PyStr) (p : PyStr) :
    fsExists (fs.filter (fun q => !(q == p))) p = false := by
  simp [fsExists, List.any_eq_true, List.mem_filter]

theorem hasValue_iff {reg : List RegEntry} {n : PyStr} :
    hasValue reg n = true ↔ ∃ e ∈ reg, e.1 = n := by
  simp [hasValue, List.any_eq_true]

theorem hasValue_deleteValue (reg : List RegEntry) (n : PyStr) :
    hasValue (deleteValue reg n) n = false := by
  simp [hasValue, deleteValue, List.any_eq_true, List.mem_filter]

/-! ### Lemmas about one enumeration pass (`addFontsFromReg`) -/

theorem addFonts_append (sysDir fontDir : PyStr) (fs : List PyStr) :
    ∀ (es1 es2 : List RegEntry) (acc : List FontRecord × List (PyStr × PyStr)),
      addFontsFromReg sysDir fontDir fs (es1 ++ es2) acc =
        addFontsFromReg sysDir fontDir fs es2 (addFontsFromReg sysDir fontDir fs es1 acc) := by
  intro es1
  induction es1 with
  | nil => intro es2 acc; rfl
  | cons e rest ih =>
    intro es2 acc
    obtain ⟨fonts, added⟩ := acc
    obtain ⟨n, v⟩ := e
    simp only [List.cons_append, addFontsFromReg]
    split
    · split
      · exact ih es2 _
      · exact ih es2 _
    · exact ih es2 _

/-- Every dedup key accumulated by a pass either was there already or comes
from one of the pass's entries, resolved against the pass's root. -/
theorem addFonts_keys (sysDir fontDir : PyStr) (fs : List PyStr) :
    ∀ (es : List RegEntry) (fonts : List FontRecord) (added : List (PyStr × PyStr))
      (k : PyStr × PyStr),
      k ∈ (addFontsFromReg sysDir fontDir fs es (fonts, added)).2 →
      k ∈ added ∨ ∃ e ∈ es, k = (e.1, pyLower (osJoin fontDir e.2)) := by
  intro es
  induction es with
  | nil => intro fonts added k hk; exact .inl hk
  | cons e rest ih =>
    intro fonts added k hk
    obtain ⟨n, v⟩ := e
    simp only [addFontsFromReg] at hk
    split at hk
    · split at hk
      · rcases ih _ _ _ hk with h | ⟨e', he', hke⟩
        · exact .inl h
        · exact .inr ⟨e', List.mem_cons_of_mem _ he', hke⟩
      · rcases ih _ _ _ hk with h | ⟨e', he', hke⟩
        · rcases List.mem_cons.mp h with h | h
          · exact .inr ⟨(n, v), List.mem_cons_self _ _, h⟩
          · exact .inl h
        · exact .inr ⟨e', List.mem_cons_of_mem _ he', hke⟩
    · rcases ih _ _ _ hk with h | ⟨e', he', hke⟩
      · exact .inl h
      · exact .inr ⟨e', List.mem_cons_of_mem _ he', hke⟩

/-- A pass never drops accumulated dedup keys. -/
theorem addFonts_added_mono (sysDir fontDir : PyStr) (fs : List PyStr) :
    ∀ (es : List RegEntry) (fonts : List FontRecord) (added : List (PyStr × PyStr)),
      added ⊆ (addFontsFromReg sysDir fontDir fs es (fonts, added)).2 := by
  intro es
  induction es with
  | nil => intro fonts added; exact fun _ h => h
  | cons e rest ih =>
    intro fonts added
    obtain ⟨n, v⟩ := e
    simp only [addFontsFromReg]
    split
    · split
      · exact ih _ _
      · exact fun k hk => ih _ _ (List.mem_cons_of_mem _ hk)
    · exact ih _ _

/-- An entry whose resolved file exists always leaves its key in the pass's
accumulator (whether it was inserted now or had been added before). -/
theorem addFonts_key_mem (sysDir fontDir : PyStr) (fs : List PyStr) :
    ∀ (es : List RegEntry) (fonts : List FontRecord) (added : List (PyStr × PyStr))
      (n v : PyStr),
      (n, v) ∈ es → fsExists fs (osJoin fontDir v) = true →
      (n, pyLower (osJoin fontDir v)) ∈ (addFontsFromReg sysDir fontDir fs es (fonts, added)).2 := by
  intro es
  induction es with
  | nil => intro fonts added n v h; simp at h
  | cons e rest ih =>
    intro fonts added n v hmem hex
    obtain ⟨n', v'⟩ := e
    rcases List.mem_cons.mp hmem with h | h
    · obtain ⟨hn, hv⟩ := Prod.mk.injEq .. ▸ h
      subst hn; subst hv
      simp only [addFontsFromReg, hex, if_true]
      split
      · rename_i hin
        exact addFonts_added_mono sysDir fontDir fs rest _ _ hin
      · exact addFonts_added_mono sysDir fontDir fs rest _ _ (List.mem_cons_self _ _)
    · simp only [addFontsFromReg]
      split
      · split
        · exact ih _ _ _ _ h hex
        · exact ih _ _ _ _ h hex
      · exact ih _ _ _ _ h hex

/-- Every record produced by a pass either was in the accumulator already,
or refers to an existing file, is classified purely by the prefix test on
its resolved path, and stems from one of the pass's entries. -/
theorem addFonts_mem (sysDir fontDir : PyStr) (fs : List PyStr) :
    ∀ (es : List RegEntry) (fonts : List FontRecord) (added : List (PyStr × PyStr))
      (r : FontRecord),
      r ∈ (addFontsFromReg sysDir fontDir fs es (fonts, added)).1 →
      r ∈ fonts ∨
        (fsExists fs r.path = true ∧
         r.type = (if (pyLower sysDir).isPrefixOf (pyLower r.path) then systemTypeStr
                   else userTypeStr) ∧
         ∃ e ∈ es, r.name = e.1 ∧ r.file = e.2 ∧ r.path = osJoin fontDir e.2) := by
  intro es
  induction es with
  | nil => intro fonts added r hr; exact .inl hr
  | cons e rest ih =>
    intro fonts added r hr
    obtain ⟨n, v⟩ := e
    simp only [addFontsFromReg] at hr
    split at hr
    · rename_i hex
      split at hr
      · rcases ih _ _ _ hr with h | ⟨h1, h2, e', he', h3⟩
        · exact .inl h
        · exact .inr ⟨h1, h2, e', List.mem_cons_of_mem _ he', h3⟩
      · rcases ih _ _ _ hr with h | ⟨h1, h2, e', he', h3⟩
        · rcases List.mem_append.mp h with h | h
          · exact .inl h
          · have hr0 : r = ⟨n, v, osJoin fontDir v,
                if (pyLower sysDir).isPrefixOf (pyLower (osJoin fontDir v)) then systemTypeStr
                else userTypeStr⟩ := by simpa using h
            subst hr0
            exact .inr ⟨hex, rfl, (n, v), List.mem_cons_self _ _, rfl, rfl, rfl⟩
        · exact .inr ⟨h1, h2, e', List.mem_cons_of_mem _ he', h3⟩
    · rcases ih _ _ _ hr with h | ⟨h1, h2, e', he', h3⟩
      · exact .inl h
      · exact .inr ⟨h1, h2, e', List.mem_cons_of_mem _ he', h3⟩

/-- Invariant of the enumeration accumulator: the key set records exactly
the keys of the records collected so far, and those keys are pairwise
distinct. -/
def AccInv (acc : List FontRecord × List (PyStr × PyStr)) : Prop :=
  (∀ k, k ∈ acc.2 ↔ ∃ r ∈ acc.1, keyOf r = k) ∧
  acc.1.Pairwise (fun a b => keyOf a ≠ keyOf b)

theorem AccInv.push {fonts : List FontRecord} {added : List (PyStr × PyStr)} {r : FontRecord}
    (h : AccInv (fonts, added)) (hne : keyOf r ∉ added) :
    AccInv (fonts ++ [r], keyOf r :: added) := by
  constructor
  · intro k
    simp only [List.mem_cons, List.mem_append, List.mem_singleton, List.not_mem_nil, or_false]
    constructor
    · rintro (rfl | hk)
      · exact ⟨r, Or.inr rfl, rfl⟩
      · rcases (h.1 k).mp hk with ⟨x, hx, hkx⟩
        exact ⟨x, Or.inl hx, hkx⟩
    · rintro ⟨x, hx | rfl, hkx⟩
      · exact Or.inr ((h.1 k).mpr ⟨x, hx, hkx⟩)
      · exact Or.inl hkx.symm
  · rw [List.pairwise_append]
    refine ⟨h.2, List.pairwise_singleton _ _, ?_⟩
    intro a ha b hb
    rw [List.mem_singleton] at hb
    subst hb
    intro hkey
    exact hne (hkey ▸ (h.1 _).mpr ⟨a, ha, rfl⟩)

theorem addFonts_inv (sysDir fontDir : PyStr) (fs : List PyStr) :
    ∀ (es : List RegEntry) (acc : List FontRecord × List (PyStr × PyStr)),
      AccInv acc → AccInv (addFontsFromReg sysDir fontDir fs es acc) := by
  intro es
  induction es with
  | nil => intro acc h; exact h
  | cons e rest ih =>
    intro acc hacc
    obtain ⟨fonts, added⟩ := acc
    obtain ⟨n, v⟩ := e
    simp only [addFontsFromReg]
    split
    · split
      · exact ih _ hacc
      · rename_i hnotin
        exact ih _ (hacc.push hnotin)
    · exact ih _ hacc

/-- In a list with pairwise-distinct keys, a key that occurs at all occurs
in exactly one record. -/
theorem filter_key_length_one :
    ∀ (l : List FontRecord) (k : PyStr × PyStr),
      l.Pairwise (fun a b => keyOf a ≠ keyOf b) →
      (∃ r ∈ l, keyOf r = k) →
      (l.filter (fun r => decide (keyOf r = k))).length = 1 := by
  intro l
  induction l with
  | nil => intro k _ he; simp at he
  | cons a t ih =>
    intro k hp he
    rw [List.pairwise_cons] at hp
    by_cases hk : keyOf a = k
    · have ht : t.filter (fun r => decide (keyOf r = k)) = [] := by
        rw [List.filter_eq_nil_iff]
        intro r hr
        simp only [decide_eq_true_eq]
        intro hrk
        exact hp.1 r hr (hk.trans hrk.symm)
      simp [List.filter_cons, hk, ht]
    · have he' : ∃ r ∈ t, keyOf r = k := by
        rcases he with ⟨r, hr, hrk⟩
        rcases List.mem_cons.mp hr with rfl | hr
        · exact absurd hrk hk
        · exact ⟨r, hr, hrk⟩
      simpa [List.filter_cons, hk] using ih k hp.2 he'

theorem mergeAcc_inv (m : FontManager) (sysRead userRead : Option (List RegEntry))
    (fs : List PyStr) : AccInv (mergeAcc m sysRead userRead fs) := by
  have base : AccInv (([], []) : List FontRecord × List (PyStr × PyStr)) := by
    constructor
    · intro k; simp
    · simp
  unfold mergeAcc
  cases sysRead with
  | none =>
    cases userRead with
    | none => exact base
    | some es => exact addFonts_inv _ _ _ _ _ base
  | some es1 =>
    cases userRead with
    | none => exact addFonts_inv _ _ _ _ _ base
    | some es2 => exact addFonts_inv _ _ _ _ _ (addFonts_inv _ _ _ _ _ base)

/-- Records accumulated by a pass all satisfy the existence and the
path-prefix classification facts, provided the incoming ones do. -/
theorem addFonts_mem_props (sysDir fontDir : PyStr) (fs : List PyStr) (es : List RegEntry)
    (fonts : List FontRecord) (added : List (PyStr × PyStr))
    (hfonts : ∀ r ∈ fonts, fsExists fs r.path = true ∧
      r.type = (if (pyLower sysDir).isPrefixOf (pyLower r.path) then systemTypeStr
                else userTypeStr))
    (r : FontRecord) (hr : r ∈ (addFontsFromReg sysDir fontDir fs es (fonts, added)).1) :
    fsExists fs r.path = true ∧
    r.type = (if (pyLower sysDir).isPrefixOf (pyLower r.path) then systemTypeStr
              else userTypeStr) := by
  rcases addFonts_mem sysDir fontDir fs es fonts added r hr with h | ⟨h1, h2, _⟩
  · exact hfonts r h
  · exact ⟨h1, h2⟩

/-- Every merged record refers to an existing file and is classified purely
by the prefix test on its resolved path. -/
theorem mergeAcc_mem (m : FontManager) (sysRead userRead : Option (List RegEntry))
    (fs : List PyStr) (r : FontRecord) (hr : r ∈ (mergeAcc m sysRead userRead fs).1) :
    fsExists fs r.path = true ∧
    r.type = (if (pyLower m.system_fonts_dir).isPrefixOf (pyLower r.path) then systemTypeStr
              else userTypeStr) := by
  unfold mergeAcc at hr
  cases sysRead with
  | none =>
    cases userRead with
    | none => simp at hr
    | some es =>
      exact addFonts_mem_props _ _ _ _ _ _ (by intro x hx; simp at hx) r hr
  | some es1 =>
    cases userRead with
    | none =>
      exact addFonts_mem_props _ _ _ _ _ _ (by intro x hx; simp at hx) r hr
    | some es2 =>
      refine addFonts_mem_props _ _ _ _ _ _ ?_ r hr
      intro x hx
      exact addFonts_mem_props _ _ _ _ _ _ (by intro y hy; simp at hy) x hx

theorem mem_get_installed_fonts {m : FontManager} {sysRead userRead : Option (List RegEntry)}
    {fs : List PyStr} {r : FontRecord} :
    r ∈ get_installed_fonts m sysRead userRead fs ↔ r ∈ (mergeAcc m sysRead userRead fs).1 := by
  unfold get_installed_fonts
  exact List.mem_mergeSort

/-- C3: for every state of the two registries and the filesystem, the
catalog returned by the enumerator contains no two records sharing the
same `(name, lowercased resolved path)` pair; and a font recorded in both
hives under the same value name, resolving (case-insensitively) to the
same path, yields exactly one record for that pair. -/
theorem fm_C3 (m : FontManager) (fs : List PyStr) :
    (∀ (sysRead userRead : Option (List RegEntry)),
       (get_installed_fonts m sysRead userRead fs).Pairwise
         (fun a b => ¬(a.name = b.name ∧ pyLower a.path = pyLower b.path))) ∧
    (∀ (sysEntries userEntries : List RegEntry) (n v1 v2 : PyStr),
       (n, v1) ∈ sysEntries →
       fsExists fs (osJoin m.system_fonts_dir v1) = true →
       (n, v2) ∈ userEntries →
       fsExists fs (osJoin m.user_fonts_dir v2) = true →
       pyLower (osJoin m.system_fonts_dir v1) = pyLower (osJoin m.user_fonts_dir v2) →
       ((get_installed_fonts m (some sysEntries) (some userEntries) fs).filter
           (fun r => decide (keyOf r = (n, pyLower (osJoin m.system_fonts_dir v1))))).length
         = 1) := by
  constructor
  · intro sysRead userRead
    have hinv := mergeAcc_inv m sysRead userRead fs
    have hperm := List.mergeSort_perm (mergeAcc m sysRead userRead fs).1
      (fun a b => pyStrLe a.name b.name)
    have hpair : (get_installed_fonts m sysRead userRead fs).Pairwise
        (fun a b => keyOf a ≠ keyOf b) := by
      unfold get_installed_fonts
      exact (hperm.pairwise_iff (fun hab => hab.symm)).mpr hinv.2
    refine hpair.imp ?_
    intro a b hab hcontr
    apply hab
    show keyOf a = keyOf b
    unfold keyOf
    rw [hcontr.1, hcontr.2]
  · intro sysEntries userEntries n v1 v2 hm hmex hu huex hsame
    have hinv := mergeAcc_inv m (some sysEntries) (some userEntries) fs
    have hkey : (n, pyLower (osJoin m.system_fonts_dir v1))
        ∈ (mergeAcc m (some sysEntries) (some userEntries) fs).2 := by
      have h1 := addFonts_key_mem m.system_fonts_dir m.system_fonts_dir fs sysEntries
        [] [] n v1 hm hmex
      exact addFonts_added_mono m.system_fonts_dir m.user_fonts_dir fs userEntries _ _ h1
    rcases (hinv.1 _).mp hkey with ⟨r, hr, hkr⟩
    have hperm := List.mergeSort_perm (mergeAcc m (some sysEntries) (some userEntries) fs).1
      (fun a b => pyStrLe a.name b.name)
    unfold get_installed_fonts
    rw [← List.countP_eq_length_filter, hperm.countP_eq, List.countP_eq_length_filter]
    exact filter_key_length_one _ _ hinv.2 ⟨r, hr, hkr⟩

/-- Witness for C3 at a concrete both-hives state. -/
theorem fm_C3_witness :
    (get_installed_fonts ⟨"C:\\WF".data, "C:\\UF".data⟩ (some [("A".data, "a.ttf".data)])
        (some [("A".data, "C:\\WF\\a.ttf".data)]) ["C:\\WF\\a.ttf".data]).Pairwise
      (fun a b => ¬(a.name = b.name ∧ pyLower a.path = pyLower b.path)) ∧
    ((get_installed_fonts ⟨"C:\\WF".data, "C:\\UF".data⟩ (some [("A".data, "a.ttf".data)])
        (some [("A".data, "C:\\WF\\a.ttf".data)]) ["C:\\WF\\a.ttf".data]).filter
        (fun r => decide (keyOf r =
          ("A".data, pyLower (osJoin "C:\\WF".data "a.ttf".data))))).length = 1 :=
  ⟨(fm_C3 ⟨"C:\\WF".data, "C:\\UF".data⟩ ["C:\\WF\\a.ttf".data]).1 _ _,
   (fm_C3 ⟨"C:\\WF".data, "C:\\UF".data⟩ ["C:\\WF\\a.ttf".data]).2 [("A".data, "a.ttf".data)]
     [("A".data, "C:\\WF\\a.ttf".data)] "A".data "a.ttf".data "C:\\WF\\a.ttf".data
     (by decide) (by decide) (by decide) (by decide) (by decide)⟩

/-- C6: the scope tag of every record the enumerator returns is determined
by the resolved path's actual location alone — the source's
case-insensitive prefix test against the system font directory — never by
which hive the entry came from: a record resolving under the system root
is tagged `'系统字体'` even when its entry came from the user hive, and a
record resolving elsewhere is tagged `'用户字体'` even when its entry came
from the machine hive. -/
theorem fm_C6 (m : FontManager) (sysRead userRead : Option (List RegEntry))
    (fs : List PyStr) (r : FontRecord) (h : r ∈ get_installed_fonts m sysRead userRead fs) :
    r.type = (if (pyLower m.system_fonts_dir).isPrefixOf (pyLower r.path) then systemTypeStr
              else userTypeStr) :=
  (mergeAcc_mem m sysRead userRead fs r (mem_get_installed_fonts.mp h)).2

/-- Witness for C6: a user-hive entry whose stored absolute path lies in
the system font directory is classified as a system font. -/
theorem fm_C6_witness :
    ((⟨"A".data, "C:\\WF\\a.ttf".data, "C:\\WF\\a.ttf".data, systemTypeStr⟩ : FontRecord) ∈
      get_installed_fonts ⟨"C:\\WF".data, "C:\\UF".data⟩ (some [])
        (some [("A".data, "C:\\WF\\a.ttf".data)]) ["C:\\WF\\a.ttf".data]) ∧
    (⟨"A".data, "C:\\WF\\a.ttf".data, "C:\\WF\\a.ttf".data, systemTypeStr⟩ : FontRecord).type =
      (if (pyLower ("C:\\WF".data : List Char)).isPrefixOf
          (pyLower ("C:\\WF\\a.ttf".data : List Char))
       then systemTypeStr else userTypeStr) := by
  have hmem : (⟨"A".data, "C:\\WF\\a.ttf".data, "C:\\WF\\a.ttf".data, systemTypeStr⟩ :
      FontRecord) ∈
      get_installed_fonts ⟨"C:\\WF".data, "C:\\UF".data⟩ (some [])
        (some [("A".data, "C:\\WF\\a.ttf".data)]) ["C:\\WF\\a.ttf".data] :=
    mem_get_installed_fonts.mpr (by decide)
  exact ⟨hmem, fm_C6 _ _ _ _ _ hmem⟩

/-- C8: the enumerator never fails outward and reads the hives
independently: a failed machine-hive read (`none`) yields exactly the
catalog of an empty machine hive (and symmetrically for the user hive),
and regardless of the other hive's outcome every entry of a successfully
read hive whose resolved file exists contributes a record carrying its
name and (lowered) resolved path. -/
theorem fm_C8 (m : FontManager) (fs : List PyStr) :
    (∀ userRead, get_installed_fonts m none userRead fs
        = get_installed_fonts m (some []) userRead fs) ∧
    (∀ sysRead, get_installed_fonts m sysRead none fs
        = get_installed_fonts m sysRead (some []) fs) ∧
    (∀ (sysRead : Option (List RegEntry)) (es : List RegEntry) (n v : PyStr),
       (n, v) ∈ es → fsExists fs (osJoin m.user_fonts_dir v) = true →
       ∃ r ∈ get_installed_fonts m sysRead (some es) fs,
         r.name = n ∧ pyLower r.path = pyLower (osJoin m.user_fonts_dir v)) ∧
    (∀ (userRead : Option (List RegEntry)) (es : List RegEntry) (n v : PyStr),
       (n, v) ∈ es → fsExists fs (osJoin m.system_fonts_dir v) = true →
       ∃ r ∈ get_installed_fonts m (some es) userRead fs,
         r.name = n ∧ pyLower r.path = pyLower (osJoin m.system_fonts_dir v)) := by
  refine ⟨?_, ?_, ?_, ?_⟩
  · intro userRead; cases userRead <;> rfl
  · intro sysRead; cases sysRead <;> rfl
  · intro sysRead es n v hmem hex
    have hinv := mergeAcc_inv m sysRead (some es) fs
    have hkey : (n, pyLower (osJoin m.user_fonts_dir v))
        ∈ (mergeAcc m sysRead (some es) fs).2 := by
      cases sysRead with
      | none => exact addFonts_key_mem _ _ _ es _ _ n v hmem hex
      | some es1 => exact addFonts_key_mem _ _ _ es _ _ n v hmem hex
    rcases (hinv.1 _).mp hkey with ⟨r, hr, hkr⟩
    exact ⟨r, mem_get_installed_fonts.mpr hr, congrArg Prod.fst hkr, congrArg Prod.snd hkr⟩
  · intro userRead es n v hmem hex
    have hinv := mergeAcc_inv m (some es) userRead fs
    have hkey : (n, pyLower (osJoin m.system_fonts_dir v))
        ∈ (mergeAcc m (some es) userRead fs).2 := by
      have h1 := addFonts_key_mem m.system_fonts_dir m.system_fonts_dir fs es [] [] n v hmem hex
      cases userRead with
      | none => exact h1
      | some es2 => exact addFonts_added_mono _ _ _ es2 _ _ h1
    rcases (hinv.1 _).mp hkey with ⟨r, hr, hkr⟩
    exact ⟨r, mem_get_installed_fonts.mpr hr, congrArg Prod.fst hkr, congrArg Prod.snd hkr⟩

/-- Witness for C8: machine-hive failure versus empty machine hive, and a
user-hive record surviving a machine-hive failure. -/
theorem fm_C8_witness :
    (get_installed_fonts ⟨"C:\\WF".data, "C:\\UF".data⟩ none
        (some [("A".data, "a.ttf".data)]) ["C:\\UF\\a.ttf".data]
      = get_installed_fonts ⟨"C:\\WF".data, "C:\\UF".data⟩ (some [])
          (some [("A".data, "a.ttf".data)]) ["C:\\UF\\a.ttf".data]) ∧
    (∃ r ∈ get_installed_fonts ⟨"C:\\WF".data, "C:\\UF".data⟩ none
        (some [("A".data, "a.ttf".data)]) ["C:\\UF\\a.ttf".data],
       r.name = "A".data ∧ pyLower r.path = pyLower (osJoin "C:\\UF".data "a.ttf".data)) :=
  ⟨(fm_C8 ⟨"C:\\WF".data, "C:\\UF".data⟩ ["C:\\UF\\a.ttf".data]).1 _,
   (fm_C8 ⟨"C:\\WF".data, "C:\\UF".data⟩ ["C:\\UF\\a.ttf".data]).2.2.1 none
     [("A".data, "a.ttf".data)] "A".data "a.ttf".data (by decide) (by decide)⟩

/-- C4: install runs its validations in the fixed order source-exists,
extension allow-list (.ttf/.otf/.ttc), target-file-absence; the first
failing check short-circuits with its specific reason (`FileNotFound`,
`UnsupportedFormat`, `AlreadyInstalled`) and no mutation or notification. -/
theorem fm_C4 (m : FontManager) (st : SysState) (font_path install_type : PyStr)
    (c w : Option OsErr) :
    (fsExists st.fs font_path = false →
       install_font m st font_path install_type c w = ⟨st, false, msgFileNotFound, false⟩) ∧
    (fsExists st.fs font_path = true →
       ¬(pyLower (splitext font_path).2 = ".ttf".data ∨
         pyLower (splitext font_path).2 = ".otf".data ∨
         pyLower (splitext font_path).2 = ".ttc".data) →
       install_font m st font_path install_type c w = ⟨st, false, msgUnsupported, false⟩) ∧
    (fsExists st.fs font_path = true →
       (pyLower (splitext font_path).2 = ".ttf".data ∨
        pyLower (splitext font_path).2 = ".otf".data ∨
        pyLower (splitext font_path).2 = ".ttc".data) →
       fsExists st.fs (osJoin (if install_type = "system".data then m.system_fonts_dir
           else m.user_fonts_dir) (basename font_path)) = true →
       install_font m st font_path install_type c w
         = ⟨st, false,
            msgAlreadyInstalled (if install_type = "system".data then systemTypeStr
                                 else userTypeStr), false⟩) := by
  refine ⟨?_, ?_, ?_⟩
  · intro h1
    simp [install_font, h1]
  · intro h1 h2
    simp [install_font, h1, h2]
  · intro h1 h2 h3
    simp [install_font, h1, h2, h3]

/-- Witness for C4 at the first validation: a missing source file. -/
theorem fm_C4_witness :
    fsExists ([] : List PyStr) "C:\\s\\X.ttf".data = false ∧
    install_font ⟨"C:\\WF".data, "C:\\UF".data⟩ ⟨[], [], []⟩ "C:\\s\\X.ttf".data "user".data
        none none
      = ⟨⟨[], [], []⟩, false, msgFileNotFound, false⟩ :=
  ⟨by decide,
   (fm_C4 ⟨"C:\\WF".data, "C:\\UF".data⟩ ⟨[], [], []⟩ "C:\\s\\X.ttf".data "user".data
     none none).1 (by decide)⟩

/-- C5: when any install validation fails (source missing, unsupported
extension, or destination already present), install reports failure and
mutates nothing: the registries and filesystem are unchanged — so an
existing destination file is never overwritten — and the notifier is not
invoked. -/
theorem fm_C5 (m : FontManager) (st : SysState) (font_path install_type : PyStr)
    (c w : Option OsErr)
    (h : fsExists st.fs font_path = false ∨
         ¬(pyLower (splitext font_path).2 = ".ttf".data ∨
           pyLower (splitext font_path).2 = ".otf".data ∨
           pyLower (splitext font_path).2 = ".ttc".data) ∨
         fsExists st.fs (osJoin (if install_type = "system".data then m.system_fonts_dir
             else m.user_fonts_dir) (basename font_path)) = true) :
    (install_font m st font_path install_type c w).st = st ∧
    (install_font m st font_path install_type c w).ok = false ∧
    (install_font m st font_path install_type c w).notified = false := by
  by_cases h1 : fsExists st.fs font_path = true
  · by_cases h2 : (pyLower (splitext font_path).2 = ".ttf".data ∨
        pyLower (splitext font_path).2 = ".otf".data ∨
        pyLower (splitext font_path).2 = ".ttc".data)
    · by_cases h3 : fsExists st.fs (osJoin (if install_type = "system".data
          then m.system_fonts_dir else m.user_fonts_dir) (basename font_path)) = true
      · simp [install_font, h1, h2, h3]
      · rcases h with h | h | h
        · exact absurd (h1.symm.trans h) (by decide)
        · exact absurd h2 h
        · exact absurd h h3
    · simp [install_font, h1, h2]
  · simp [install_font, h1]

/-- Witness for C5 at the third validation: the destination file already
exists, and nothing changes. -/
theorem fm_C5_witness :
    (fsExists ["C:\\s\\X.ttf".data, "C:\\UF\\X.ttf".data]
        (osJoin (if ("user".data : List Char) = "system".data then "C:\\WF".data
                 else "C:\\UF".data) (basename "C:\\s\\X.ttf".data)) = true) ∧
    ((install_font ⟨"C:\\WF".data, "C:\\UF".data⟩
        ⟨[], [], ["C:\\s\\X.ttf".data, "C:\\UF\\X.ttf".data]⟩ "C:\\s\\X.ttf".data "user".data
        none none).st = ⟨[], [], ["C:\\s\\X.ttf".data, "C:\\UF\\X.ttf".data]⟩ ∧
     (install_font ⟨"C:\\WF".data, "C:\\UF".data⟩
        ⟨[], [], ["C:\\s\\X.ttf".data, "C:\\UF\\X.ttf".data]⟩ "C:\\s\\X.ttf".data "user".data
        none none).ok = false ∧
     (install_font ⟨"C:\\WF".data, "C:\\UF".data⟩
        ⟨[], [], ["C:\\s\\X.ttf".data, "C:\\UF\\X.ttf".data]⟩ "C:\\s\\X.ttf".data "user".data
        none none).notified = false) :=
  ⟨by decide,
   fm_C5 ⟨"C:\\WF".data, "C:\\UF".data⟩ ⟨[], [], ["C:\\s\\X.ttf".data, "C:\\UF\\X.ttf".data]⟩
     "C:\\s\\X.ttf".data "user".data none none (Or.inr (Or.inr (by decide)))⟩

/-- C7: when the registry value exists and its deletion succeeds but the
resolved font file is absent from disk, uninstall still returns success
(the `os.remove` step is never attempted, whatever its oracle). -/
theorem fm_C7 (m : FontManager) (st : SysState) (font_name font_file font_type : PyStr)
    (removeErr : Option OsErr)
    (hval : hasValue (if font_type = systemTypeStr then st.machineReg else st.userReg)
        font_name = true)
    (hmiss : fsExists st.fs
        (osJoin (if font_type = systemTypeStr then m.system_fonts_dir
                 else m.user_fonts_dir) font_file) = false) :
    (uninstall_font m st font_name font_file font_type none removeErr).ok = true := by
  by_cases hb : font_type = systemTypeStr
  · subst hb
    simp at hval hmiss
    simp [uninstall_font, hval, hmiss]
  · simp only [if_neg hb] at hval hmiss
    simp [uninstall_font, hval, hmiss, hb]

/-- Witness for C7: the user-scope registry names a file that is gone. -/
theorem fm_C7_witness :
    (hasValue (if ("用户字体".data : List Char) = systemTypeStr
        then ([] : List RegEntry) else [("A (TrueType)".data, "a.ttf".data)])
        "A (TrueType)".data = true) ∧
    (fsExists ([] : List PyStr)
        (osJoin (if ("用户字体".data : List Char) = systemTypeStr then "C:\\WF".data
                 else "C:\\UF".data) "a.ttf".data) = false) ∧
    (uninstall_font ⟨"C:\\WF".data, "C:\\UF".data⟩
        ⟨[], [("A (TrueType)".data, "a.ttf".data)], []⟩ "A (TrueType)".data "a.ttf".data
        "用户字体".data none none).ok = true :=
  ⟨by decide, by decide,
   fm_C7 ⟨"C:\\WF".data, "C:\\UF".data⟩ ⟨[], [("A (TrueType)".data, "a.ttf".data)], []⟩
     "A (TrueType)".data "a.ttf".data "用户字体".data none (by decide) (by decide)⟩

/-- C9: uninstall is not atomic on error: when the registry deletion
succeeds but `os.remove` then fails, the call reports failure, the
registry value stays deleted (no rollback), and the notifier is not
invoked. -/
theorem fm_C9 (m : FontManager) (st : SysState) (font_name font_file font_type : PyStr)
    (e : OsErr)
    (hval : hasValue (if font_type = systemTypeStr then st.machineReg else st.userReg)
        font_name = true)
    (hex : fsExists st.fs
        (osJoin (if font_type = systemTypeStr then m.system_fonts_dir
                 else m.user_fonts_dir) font_file) = true) :
    (uninstall_font m st font_name font_file font_type none (some e)).ok = false ∧
    hasValue (if font_type = systemTypeStr
              then (uninstall_font m st font_name font_file font_type none (some e)).st.machineReg
              else (uninstall_font m st font_name font_file font_type none (some e)).st.userReg)
        font_name = false ∧
    (uninstall_font m st font_name font_file font_type none (some e)).notified = false := by
  by_cases hb : font_type = systemTypeStr
  · subst hb
    simp at hval hex
    cases e <;> simp [uninstall_font, hval, hex, hasValue_deleteValue]
  · simp only [if_neg hb] at hval hex ⊢
    cases e <;> simp [uninstall_font, hval, hex, hb, hasValue_deleteValue]

/-- Witness for C9: a permission failure while removing the file leaves
the value deleted and the call unsuccessful. -/
theorem fm_C9_witness :
    (hasValue (if ("用户字体".data : List Char) = systemTypeStr
        then ([] : List RegEntry) else [("A (TrueType)".data, "a.ttf".data)])
        "A (TrueType)".data = true) ∧
    (fsExists ["C:\\UF\\a.ttf".data]
        (osJoin (if ("用户字体".data : List Char) = systemTypeStr then "C:\\WF".data
                 else "C:\\UF".data) "a.ttf".data) = true) ∧
    ((uninstall_font ⟨"C:\\WF".data, "C:\\UF".data⟩
        ⟨[], [("A (TrueType)".data, "a.ttf".data)], ["C:\\UF\\a.ttf".data]⟩
        "A (TrueType)".data "a.ttf".data "用户字体".data none (some .permission)).ok = false ∧
     hasValue (if ("用户字体".data : List Char) = systemTypeStr
        then (uninstall_font ⟨"C:\\WF".data, "C:\\UF".data⟩
          ⟨[], [("A (TrueType)".data, "a.ttf".data)], ["C:\\UF\\a.ttf".data]⟩
          "A (TrueType)".data "a.ttf".data "用户字体".data none
          (some .permission)).st.machineReg
        else (uninstall_font ⟨"C:\\WF".data, "C:\\UF".data⟩
          ⟨[], [("A (TrueType)".data, "a.ttf".data)], ["C:\\UF\\a.ttf".data]⟩
          "A (TrueType)".data "a.ttf".data "用户字体".data none
          (some .permission)).st.userReg) "A (TrueType)".data = false ∧
     (uninstall_font ⟨"C:\\WF".data, "C:\\UF".data⟩
        ⟨[], [("A (TrueType)".data, "a.ttf".data)], ["C:\\UF\\a.ttf".data]⟩
        "A (TrueType)".data "a.ttf".data "用户字体".data none
        (some .permission)).notified = false) :=
  ⟨by decide, by decide,
   fm_C9 ⟨"C:\\WF".data, "C:\\UF".data⟩
     ⟨[], [("A (TrueType)".data, "a.ttf".data)], ["C:\\UF\\a.ttf".data]⟩
     "A (TrueType)".data "a.ttf".data "用户字体".data .permission (by decide) (by decide)⟩

/-- C10: scope arguments are never validated: any `install_type` other
than the exact string `'system'` makes install behave exactly as user
scope, and any `font_type` other than the exact `'系统字体'` tag makes
uninstall touch the user hive and directory (its outcome differs from the
`'用户字体'` call only in the echoed message text); no scope value is
rejected. -/
theorem fm_C10 (m : FontManager) (st : SysState) (p it : PyStr) (c w : Option OsErr)
    (n f ft : PyStr) (oe re : Option OsErr)
    (h1 : it ≠ "system".data) (h2 : ft ≠ systemTypeStr) :
    install_font m st p it c w = install_font m st p "user".data c w ∧
    (uninstall_font m st n f ft oe re).st = (uninstall_font m st n f userTypeStr oe re).st ∧
    (uninstall_font m st n f ft oe re).ok = (uninstall_font m st n f userTypeStr oe re).ok ∧
    (uninstall_font m st n f ft oe re).notified
      = (uninstall_font m st n f userTypeStr oe re).notified := by
  have hu : (userTypeStr : PyStr) ≠ systemTypeStr := by decide
  have huser : ("user".data : PyStr) ≠ "system".data := by decide
  refine ⟨?_, ?_⟩
  · simp [install_font, h1, huser]
  · cases oe with
    | none =>
      by_cases hv : hasValue st.userReg n = true
      · by_cases hfe : fsExists st.fs (osJoin m.user_fonts_dir f) = true
        · cases re with
          | none => simp [uninstall_font, h2, hu, hv, hfe]
          | some e => cases e <;> simp [uninstall_font, h2, hu, hv, hfe]
        · simp [uninstall_font, h2, hu, hv, hfe]
      · simp [uninstall_font, h2, hu, hv]
    | some e => cases e <;> simp [uninstall_font, h2, hu]

/-- Witness for C10: the unknown scope strings `"USER"` and `"宋体"` are
treated as user scope. -/
theorem fm_C10_witness :
    (("USER".data : List Char) ≠ "system".data ∧ ("宋体".data : List Char) ≠ systemTypeStr) ∧
    (install_font ⟨"C:\\WF".data, "C:\\UF".data⟩ ⟨[], [], ["C:\\s\\X.ttf".data]⟩
        "C:\\s\\X.ttf".data "USER".data none none
      = install_font ⟨"C:\\WF".data, "C:\\UF".data⟩ ⟨[], [], ["C:\\s\\X.ttf".data]⟩
          "C:\\s\\X.ttf".data "user".data none none ∧
     (uninstall_font ⟨"C:\\WF".data, "C:\\UF".data⟩ ⟨[], [], ["C:\\s\\X.ttf".data]⟩
        "A".data "a.ttf".data "宋体".data none none).st
       = (uninstall_font ⟨"C:\\WF".data, "C:\\UF".data⟩ ⟨[], [], ["C:\\s\\X.ttf".data]⟩
          "A".data "a.ttf".data userTypeStr none none).st ∧
     (uninstall_font ⟨"C:\\WF".data, "C:\\UF".data⟩ ⟨[], [], ["C:\\s\\X.ttf".data]⟩
        "A".data "a.ttf".data "宋体".data none none).ok
       = (uninstall_font ⟨"C:\\WF".data, "C:\\UF".data⟩ ⟨[], [], ["C:\\s\\X.ttf".data]⟩
          "A".data "a.ttf".data userTypeStr none none).ok ∧
     (uninstall_font ⟨"C:\\WF".data, "C:\\UF".data⟩ ⟨[], [], ["C:\\s\\X.ttf".data]⟩
        "A".data "a.ttf".data "宋体".data none none).notified
       = (uninstall_font ⟨"C:\\WF".data, "C:\\UF".data⟩ ⟨[], [], ["C:\\s\\X.ttf".data]⟩
          "A".data "a.ttf".data userTypeStr none none).notified) :=
  ⟨⟨by decide, by decide⟩,
   fm_C10 ⟨"C:\\WF".data, "C:\\UF".data⟩ ⟨[], [], ["C:\\s\\X.ttf".data]⟩
     "C:\\s\\X.ttf".data "USER".data none none "A".data "a.ttf".data "宋体".data none none
     (by decide) (by decide)⟩

/-- The display name the installer actually derives: the filename's stem
plus `" (TrueType)"` for `.ttf`, `" (OpenType)"` for `.otf`, and the bare
stem for `.ttc` (the source has no third tag). -/
def derivedRegName (font_path : PyStr) : PyStr :=
  let ext := pyLower (splitext font_path).2
  let font_name := (splitext (basename font_path)).1
  if ext = ".ttf".data then font_name ++ " (TrueType)".data
  else if ext = ".otf".data then font_name ++ " (OpenType)".data
  else font_name

/-- Inversion of a successful install: all three validations passed, both
OS oracles were clear, and the result is exactly the file copy plus the
registry write of `(derivedRegName, filename)` in the chosen scope. -/
theorem install_ok_inv (m : FontManager) (st : SysState) (font_path install_type : PyStr)
    (c w : Option OsErr)
    (h_ok : (install_font m st font_path install_type c w).ok = true) :
    fsExists st.fs font_path = true ∧
    (pyLower (splitext font_path).2 = ".ttf".data ∨
     pyLower (splitext font_path).2 = ".otf".data ∨
     pyLower (splitext font_path).2 = ".ttc".data) ∧
    fsExists st.fs (osJoin (if install_type = "system".data then m.system_fonts_dir
        else m.user_fonts_dir) (basename font_path)) = false ∧
    c = none ∧ w = none ∧
    install_font m st font_path install_type c w =
      ⟨if install_type = "system".data
       then { machineReg := setValue st.machineReg (derivedRegName font_path) (basename font_path),
              userReg := st.userReg,
              fs := st.fs ++ [osJoin m.system_fonts_dir (basename font_path)] }
       else { machineReg := st.machineReg,
              userReg := setValue st.userReg (derivedRegName font_path) (basename font_path),
              fs := st.fs ++ [osJoin m.user_fonts_dir (basename font_path)] },
       true, msgInstallOk (if install_type = "system".data then systemTypeStr else userTypeStr),
       true⟩ := by
  by_cases h1 : fsExists st.fs font_path = true
  · by_cases h2 : (pyLower (splitext font_path).2 = ".ttf".data ∨
        pyLower (splitext font_path).2 = ".otf".data ∨
        pyLower (splitext font_path).2 = ".ttc".data)
    · by_cases h3 : fsExists st.fs (osJoin (if install_type = "system".data
          then m.system_fonts_dir else m.user_fonts_dir) (basename font_path)) = true
      · exfalso; simp [install_font, h1, h2, h3] at h_ok
      · cases c with
        | some e => exfalso; cases e <;> simp [install_font, h1, h2, h3] at h_ok
        | none =>
          cases w with
          | some e => exfalso; cases e <;> simp [install_font, h1, h2, h3] at h_ok
          | none =>
            refine ⟨h1, h2, Bool.eq_false_iff.mpr h3, rfl, rfl, ?_⟩
            by_cases hb : install_type = "system".data
            · rw [if_pos hb] at h3
              simp [install_font, derivedRegName, h1, h2, h3, hb]
            · rw [if_neg hb] at h3
              simp [install_font, derivedRegName, h1, h2, h3, hb]
    · exfalso; simp [install_font, h1, h2] at h_ok
  · exfalso; simp [install_font, h1] at h_ok

/-- C1 (amended): every successful install writes into the chosen hive the
value pairing the derived display name with the plain filename, where the
name is the filename's stem followed by `" (TrueType)"` for `.ttf`, by
`" (OpenType)"` for `.otf`, and by nothing at all for `.ttc` — two known
format tags, not three. -/
theorem fm_C1_amended (m : FontManager) (st : SysState) (font_path install_type : PyStr)
    (c w : Option OsErr)
    (h_ok : (install_font m st font_path install_type c w).ok = true) :
    (derivedRegName font_path, basename font_path) ∈
      (if install_type = "system".data
       then (install_font m st font_path install_type c w).st.machineReg
       else (install_font m st font_path install_type c w).st.userReg) := by
  obtain ⟨-, -, -, -, -, heq⟩ := install_ok_inv m st font_path install_type c w h_ok
  rw [heq]
  by_cases hb : install_type = "system".data <;> simp [hb, setValue]

/-- Witness for C1 (amended) at a concrete successful `.otf` install. -/
theorem fm_C1_witness :
    ((install_font ⟨"C:\\WF".data, "C:\\UF".data⟩ ⟨[], [], ["C:\\s\\X.otf".data]⟩
        "C:\\s\\X.otf".data "user".data none none).ok = true) ∧
    ((derivedRegName "C:\\s\\X.otf".data, basename "C:\\s\\X.otf".data) ∈
      (if ("user".data : List Char) = "system".data
       then (install_font ⟨"C:\\WF".data, "C:\\UF".data⟩ ⟨[], [], ["C:\\s\\X.otf".data]⟩
          "C:\\s\\X.otf".data "user".data none none).st.machineReg
       else (install_font ⟨"C:\\WF".data, "C:\\UF".data⟩ ⟨[], [], ["C:\\s\\X.otf".data]⟩
          "C:\\s\\X.otf".data "user".data none none).st.userReg)) :=
  ⟨by decide,
   fm_C1_amended ⟨"C:\\WF".data, "C:\\UF".data⟩ ⟨[], [], ["C:\\s\\X.otf".data]⟩
     "C:\\s\\X.otf".data "user".data none none (by decide)⟩

/-- Counterexample to C1 as frozen: a successful `.ttc` install writes the
value name bare — exactly the extension-stripped stem with nothing
appended — so there is no third human-readable format tag for `.ttc`. -/
theorem fm_C1_cex :
    (install_font ⟨"C:\\WF".data, "C:\\UF".data⟩ ⟨[], [], ["C:\\s\\X.ttc".data]⟩
        "C:\\s\\X.ttc".data "user".data none none).ok = true ∧
    (install_font ⟨"C:\\WF".data, "C:\\UF".data⟩ ⟨[], [], ["C:\\s\\X.ttc".data]⟩
        "C:\\s\\X.ttc".data "user".data none none).st.userReg
      = [("X".data, "X.ttc".data)] ∧
    ("X".data : List Char) = (splitext (basename "C:\\s\\X.ttc".data)).1 :=
  ⟨by decide, by decide, by decide⟩

/-- Processing a single hive entry whose resolved file exists, whose key is
new, and whose resolved path is not under the system root appends exactly
one user-classified record. -/
theorem addFonts_single_insert (sysDir fontDir : PyStr) (fs : List PyStr) (n v : PyStr)
    (acc : List FontRecord × List (PyStr × PyStr))
    (hex : fsExists fs (osJoin fontDir v) = true)
    (hnotin : ((n, pyLower (osJoin fontDir v)) : PyStr × PyStr) ∉ acc.2)
    (hpre : (pyLower sysDir).isPrefixOf (pyLower (osJoin fontDir v)) = false) :
    (addFontsFromReg sysDir fontDir fs [(n, v)] acc).1
      = acc.1 ++ [⟨n, v, osJoin fontDir v, userTypeStr⟩] := by
  obtain ⟨fonts, added⟩ := acc
  simp [addFontsFromReg, hex, hnotin, hpre]

/-- The display name a `.ttf` install derives: the stem plus the TrueType
tag. -/
def ttfName (font_path : PyStr) : PyStr :=
  (splitext (basename font_path)).1 ++ " (TrueType)".data

/-- The catalog record a user-scope `.ttf` install gives rise to. -/
def ttfRecord (m : FontManager) (font_path : PyStr) : FontRecord :=
  ⟨ttfName font_path, basename font_path, osJoin m.user_fonts_dir (basename font_path),
   userTypeStr⟩

/-- C2 (round trip): a successful user-scope install of a `.ttf` file puts
into the catalog a record whose name ends in the TrueType tag, whose
`file` is the plain source filename, and whose scope is user; uninstalling
with that record's `(name, file)` and user scope succeeds, after which the
catalog no longer contains the record and the file is gone from the user
font directory.  The two side conditions say the user target does not
resolve under the system root and no machine-hive entry collides with the
new record's dedup key. -/
theorem fm_C2 (m : FontManager) (st : SysState) (font_path : PyStr) (c w : Option OsErr)
    (h_ok : (install_font m st font_path "user".data c w).ok = true)
    (h_ext : pyLower (splitext font_path).2 = ".ttf".data)
    (h_dir : (pyLower m.system_fonts_dir).isPrefixOf
        (pyLower (osJoin m.user_fonts_dir (basename font_path))) = false)
    (h_mach : ∀ e ∈ st.machineReg,
        ¬(e.1 = ttfName font_path ∧
          pyLower (osJoin m.system_fonts_dir e.2)
            = pyLower (osJoin m.user_fonts_dir (basename font_path)))) :
    (ttfRecord m font_path ∈ list_fonts m (install_font m st font_path "user".data c w).st) ∧
    ((" (TrueType)".data : PyStr).isSuffixOf (ttfRecord m font_path).name = true) ∧
    ((ttfRecord m font_path).file = basename font_path) ∧
    ((ttfRecord m font_path).type = userTypeStr) ∧
    ((uninstall_font m (install_font m st font_path "user".data c w).st
        (ttfName font_path) (basename font_path) userTypeStr none none).ok = true) ∧
    (ttfRecord m font_path ∉ list_fonts m
      (uninstall_font m (install_font m st font_path "user".data c w).st
        (ttfName font_path) (basename font_path) userTypeStr none none).st) ∧
    (fsExists (uninstall_font m (install_font m st font_path "user".data c w).st
        (ttfName font_path) (basename font_path) userTypeStr none none).st.fs
      (osJoin m.user_fonts_dir (basename font_path)) = false) := by
  have hu : ¬(("user".data : PyStr) = "system".data) := by decide
  have huu : ¬((userTypeStr : PyStr) = systemTypeStr) := by decide
  obtain ⟨-, -, -, rfl, rfl, heq⟩ := install_ok_inv m st font_path "user".data c w h_ok
  simp only [if_neg hu] at heq
  have hrn : derivedRegName font_path = ttfName font_path := by
    simp [derivedRegName, ttfName, h_ext]
  rw [hrn] at heq
  have htp_mem : fsExists (st.fs ++ [osJoin m.user_fonts_dir (basename font_path)])
      (osJoin m.user_fonts_dir (basename font_path)) = true :=
    fsExists_iff.mpr (by simp)
  have hval : hasValue (setValue st.userReg (ttfName font_path) (basename font_path))
      (ttfName font_path) = true :=
    hasValue_iff.mpr ⟨(ttfName font_path, basename font_path), by simp [setValue], rfl⟩
  have huneq : uninstall_font m (install_font m st font_path "user".data none none).st
      (ttfName font_path) (basename font_path) userTypeStr none none
    = ⟨⟨st.machineReg,
        deleteValue (setValue st.userReg (ttfName font_path) (basename font_path))
          (ttfName font_path),
        (st.fs ++ [osJoin m.user_fonts_dir (basename font_path)]).filter
          (fun q => !(q == osJoin m.user_fonts_dir (basename font_path)))⟩,
       true, msgUninstallOk userTypeStr, true⟩ := by
    rw [heq]
    simp [uninstall_font, huu, hval, htp_mem]
  refine ⟨?_, ?_, rfl, rfl, ?_, ?_, ?_⟩
  · rw [heq]
    apply mem_get_installed_fonts.mpr
    show ttfRecord m font_path ∈
      (addFontsFromReg m.system_fonts_dir m.user_fonts_dir
        (st.fs ++ [osJoin m.user_fonts_dir (basename font_path)])
        (setValue st.userReg (ttfName font_path) (basename font_path))
        (addFontsFromReg m.system_fonts_dir m.system_fonts_dir
          (st.fs ++ [osJoin m.user_fonts_dir (basename font_path)]) st.machineReg
          ([], []))).1
    have hnotin : ((ttfName font_path, pyLower (osJoin m.user_fonts_dir (basename font_path)))
        : PyStr × PyStr) ∉
        (addFontsFromReg m.system_fonts_dir m.user_fonts_dir
          (st.fs ++ [osJoin m.user_fonts_dir (basename font_path)])
          (st.userReg.filter (fun e => !(e.1 == ttfName font_path)))
          (addFontsFromReg m.system_fonts_dir m.system_fonts_dir
            (st.fs ++ [osJoin m.user_fonts_dir (basename font_path)]) st.machineReg
            ([], []))).2 := by
      intro hk
      rcases addFonts_keys _ _ _ _ _ _ _ hk with hk1 | ⟨e, he, hke⟩
      · rcases addFonts_keys _ _ _ _ _ _ _ hk1 with hk2 | ⟨e2, he2, hke2⟩
        · simp at hk2
        · exact h_mach e2 he2
            ⟨(congrArg Prod.fst hke2).symm, (congrArg Prod.snd hke2).symm⟩
      · have hne : e.1 ≠ ttfName font_path := by
          simpa using (List.mem_filter.mp he).2
        exact hne (congrArg Prod.fst hke).symm
    simp only [setValue]
    rw [addFonts_append]
    rw [addFonts_single_insert _ _ _ _ _ _ htp_mem hnotin h_dir]
    exact List.mem_append_right _ (List.mem_singleton_self _)
  · rw [List.isSuffixOf_iff_suffix]
    exact List.suffix_append _ _
  · rw [huneq]
  · intro hmem
    rw [huneq] at hmem
    have h := (mergeAcc_mem m _ _ _ _ (mem_get_installed_fonts.mp hmem)).1
    have h' : fsExists ((st.fs ++ [osJoin m.user_fonts_dir (basename font_path)]).filter
        (fun q => !(q == osJoin m.user_fonts_dir (basename font_path))))
        (osJoin m.user_fonts_dir (basename font_path)) = true := h
    rw [fsExists_filter_self] at h'
    exact absurd h' (by decide)
  · rw [huneq]
    exact fsExists_filter_self _ _

/-- Witness for C2: a concrete round trip of `X.ttf` through install,
list, uninstall, list. -/
theorem fm_C2_witness :
    ((install_font ⟨"C:\\WF".data, "C:\\UF".data⟩ ⟨[], [], ["C:\\s\\X.ttf".data]⟩
        "C:\\s\\X.ttf".data "user".data none none).ok = true) ∧
    ((ttfRecord ⟨"C:\\WF".data, "C:\\UF".data⟩ "C:\\s\\X.ttf".data ∈
        list_fonts ⟨"C:\\WF".data, "C:\\UF".data⟩
          (install_font ⟨"C:\\WF".data, "C:\\UF".data⟩ ⟨[], [], ["C:\\s\\X.ttf".data]⟩
            "C:\\s\\X.ttf".data "user".data none none).st) ∧
     ((" (TrueType)".data : List Char).isSuffixOf
        (ttfRecord ⟨"C:\\WF".data, "C:\\UF".data⟩ "C:\\s\\X.ttf".data).name = true) ∧
     ((ttfRecord ⟨"C:\\WF".data, "C:\\UF".data⟩ "C:\\s\\X.ttf".data).file
        = basename "C:\\s\\X.ttf".data) ∧
     ((ttfRecord ⟨"C:\\WF".data, "C:\\UF".data⟩ "C:\\s\\X.ttf".data).type = userTypeStr) ∧
     ((uninstall_font ⟨"C:\\WF".data, "C:\\UF".data⟩
         (install_font ⟨"C:\\WF".data, "C:\\UF".data⟩ ⟨[], [], ["C:\\s\\X.ttf".data]⟩
           "C:\\s\\X.ttf".data "user".data none none).st
         (ttfName "C:\\s\\X.ttf".data) (basename "C:\\s\\X.ttf".data) userTypeStr
         none none).ok = true) ∧
     (ttfRecord ⟨"C:\\WF".data, "C:\\UF".data⟩ "C:\\s\\X.ttf".data ∉
        list_fonts ⟨"C:\\WF".data, "C:\\UF".data⟩
          (uninstall_font ⟨"C:\\WF".data, "C:\\UF".data⟩
            (install_font ⟨"C:\\WF".data, "C:\\UF".data⟩ ⟨[], [], ["C:\\s\\X.ttf".data]⟩
              "C:\\s\\X.ttf".data "user".data none none).st
            (ttfName "C:\\s\\X.ttf".data) (basename "C:\\s\\X.ttf".data) userTypeStr
            none none).st) ∧
     (fsExists (uninstall_font ⟨"C:\\WF".data, "C:\\UF".data⟩
         (install_font ⟨"C:\\WF".data, "C:\\UF".data⟩ ⟨[], [], ["C:\\s\\X.ttf".data]⟩
           "C:\\s\\X.ttf".data "user".data none none).st
         (ttfName "C:\\s\\X.ttf".data) (basename "C:\\s\\X.ttf".data) userTypeStr
         none none).st.fs
       (osJoin "C:\\UF".data (basename "C:\\s\\X.ttf".data)) = false)) :=
  ⟨by decide,
   fm_C2 ⟨"C:\\WF".data, "C:\\UF".data⟩ ⟨[], [], ["C:\\s\\X.ttf".data]⟩ "C:\\s\\X.ttf".data
     none none (by decide) (by decide) (by decide) (by decide)⟩
